import Mathlib

/-!
Shallow embedding of `src/scripts/verify.js` (apprenticeship-ratios data
verification script).

JSON documents read from disk are modelled by `JSVal` (the image of
`JSON.parse`, which never yields `undefined`); a JavaScript property access
that may yield `undefined` is modelled by `Option JSVal`.  A file on disk is
either absent, present-but-unparseable, or parses to a `JSVal` (`FileRead`).
Property access on `null` and calling `startsWith` on a truthy non-string
throw in JavaScript; those control paths are modelled with `Except Unit`,
whose `.error` value corresponds to an uncaught exception that unwinds to
`main().catch` (process exits 1 with the generic failure message).
`new Date(x)` validity is an external-library fact and is abstracted as an
oracle parameter `dateOk : JSVal → Bool`.
-/

namespace Verify

/-- A JavaScript value as produced by `JSON.parse` (numbers approximated by
integers; the script never does arithmetic on them). -/
inductive JSVal where
  | null
  | bool (b : Bool)
  | num (n : Int)
  | str (s : String)
  | arr (elems : List JSVal)
  | obj (fields : List (String × JSVal))

/-- Is this value JSON `null`? -/
def JSVal.isNull : JSVal → Bool
  | .null => true
  | _ => false

/-- JavaScript truthiness of a value. -/
def JSVal.truthy : JSVal → Bool
  | .null => false
  | .bool b => b
  | .num n => decide (n ≠ 0)
  | .str s => decide (s ≠ "")
  | .arr _ => true
  | .obj _ => true

/-- String coercion used by template literals (`${x}`); arrays join their
elements with commas, plain objects print as `[object Object]`. -/
def JSVal.display : JSVal → String
  | .null => "null"
  | .bool b => if b then "true" else "false"
  | .num n => toString n
  | .str s => s
  | .arr xs => String.intercalate "," (xs.attach.map (fun x => JSVal.display x.1))
  | .obj _ => "[object Object]"
decreasing_by
  simp_wf
  have := List.sizeOf_lt_of_mem x.2
  omega

/-- Non-throwing property access: `v.k` on an object is a key lookup, on any
other value it is `undefined` (`none`).  Access on `null` throws in JS; call
sites guard for `null` before using this. -/
def getF : JSVal → String → Option JSVal
  | .obj fields, k => (fields.lookup k)
  | _, _ => none

/-- Truthiness of a possibly-`undefined` value. -/
def jsTruthy : Option JSVal → Bool
  | none => false
  | some v => v.truthy

/-- The JavaScript `typeof` operator (note `typeof null` and
`typeof anArray` are both `"object"`). -/
def jsTypeof : Option JSVal → String
  | none => "undefined"
  | some .null => "object"
  | some (.bool _) => "boolean"
  | some (.num _) => "number"
  | some (.str _) => "string"
  | some (.arr _) => "object"
  | some (.obj _) => "object"

/-- Rendering of `${x}` where `x` may be `undefined`. -/
def displayOpt : Option JSVal → String
  | none => "undefined"
  | some v => v.display

/-- Model of `Object.keys` restricted to the shapes that reach it in the script
(a truthy value of `typeof` `"object"`, i.e. a plain object or an array). -/
def objKeysOpt : Option JSVal → List String
  | some (.obj fields) => fields.map Prod.fst
  | some (.arr xs) => (List.range xs.length).map toString
  | _ => []

/-- Model of `Object.entries`, same restriction as `objKeysOpt`. -/
def objEntriesOpt : Option JSVal → List (String × JSVal)
  | some (.obj fields) => fields
  | some (.arr xs) => xs.enum.map (fun p => (toString p.1, p.2))
  | _ => []

/-- The `EXPECTED_STATES` constant of `verify.js`: the 50 US states plus DC. -/
def EXPECTED_STATES : List String :=
  [ "AL", "AK", "AZ", "AR", "CA", "CO", "CT", "DE", "DC", "FL",
    "GA", "HI", "ID", "IL", "IN", "IA", "KS", "KY", "LA", "ME",
    "MD", "MA", "MI", "MN", "MS", "MO", "MT", "NE", "NV", "NH",
    "NJ", "NM", "NY", "NC", "ND", "OH", "OK", "OR", "PA",
    "RI", "SC", "SD", "TN", "TX", "UT", "VT", "VA", "WA",
    "WV", "WI", "WY" ]

/-- One entry of `results.details`: `{ type, check, details }`.  The
`details` component is a raw JS value because one call site
(`fail('lastUpdated is valid date', index.lastUpdated)`) passes a non-string
value through. -/
structure Detail where
  type : String
  check : String
  details : JSVal

/-- The global `results` accumulator of `verify.js`. -/
structure Results where
  passed : Nat
  warnings : Nat
  errors : Nat
  details : List Detail

/-- Initial `results` value. -/
def results0 : Results := ⟨0, 0, 0, []⟩

/-- Model of `pass(check)`: increments the pass counter (logging only in verbose
mode, no detail entry). -/
def pass (r : Results) : Results := { r with passed := r.passed + 1 }

/-- Model of `warn(check, details)`: increments the warning counter and appends a
detail entry. -/
def warn (check : String) (details : JSVal) (r : Results) : Results :=
  { r with warnings := r.warnings + 1
           details := r.details ++ [⟨"warning", check, details⟩] }

/-- Model of `fail(check, details)`: increments the error counter and appends a
detail entry. -/
def fail (check : String) (details : JSVal) (r : Results) : Results :=
  { r with errors := r.errors + 1
           details := r.details ++ [⟨"error", check, details⟩] }

/-- Outcome of reading one file from disk. -/
inductive FileRead where
  | missing
  | unparseable (msg : String)
  | parsed (v : JSVal)

/-- The file-system inputs of one run: `data/index.json`, the per-region
`data/<CODE>.json` files, and `web/public/search-index.json`. -/
structure FS where
  indexFile : FileRead
  stateFile : String → FileRead
  searchIndexFile : FileRead

/-- Lines 82-91 of `verify.js`: the `lastUpdated` checks (`!index.lastUpdated`
covers both absence and falsy values; a present truthy value is date-parsed
via the oracle). -/
def checkLastUpdated (dateOk : JSVal → Bool) (lu : Option JSVal) (r : Results) : Results :=
  match lu with
  | none => fail "index.json has lastUpdated field" (.str "") r
  | some v =>
    if v.truthy = false then fail "index.json has lastUpdated field" (.str "") r
    else if dateOk v then pass r
    else fail "lastUpdated is valid date" v r

/-- The condition guarding line 93 of `verify.js`, de-negated:
`index.states` is truthy and of `typeof` `"object"` (which, in JavaScript,
is also true of arrays). -/
def statesOkB (st : Option JSVal) : Bool :=
  jsTruthy st && (jsTypeof st == "object")

/-- Model of `validateIndexFile()`: returns the parsed index or `none` (the JS
`return null`, which makes `main` abort with the cannot-continue message).
A `.error` result is the uncaught `TypeError` thrown by `index.lastUpdated`
when the file parses to JSON `null`. -/
def validateIndexFile (dateOk : JSVal → Bool) (file : FileRead) (r : Results) :
    Except Unit (Results × Option JSVal) :=
  match file with
  | .missing => .ok (fail "index.json exists" (.str "File not found") r, none)
  | .unparseable msg =>
    .ok (fail "index.json is valid JSON" (.str msg) (pass r), none)
  | .parsed idx =>
    let r := pass (pass r)
    if idx.isNull then .error () else
    let r := checkLastUpdated dateOk (getF idx "lastUpdated") r
    let st := getF idx "states"
    if statesOkB st = false then
      .ok (fail "index.json has states object" (.str "") r, none)
    else
      let r := pass r
      let indexStates := objKeysOpt st
      let missingStates := EXPECTED_STATES.filter (fun s => !(indexStates.contains s))
      let r :=
        if missingStates.length > 0 then
          warn "All expected states present"
            (.str ("Missing: " ++ String.intercalate ", " missingStates)) r
        else pass r
      .ok (r, some idx)

/-- The `missingStates` list computed on line 100 of `verify.js`: the
reference codes absent from the keys of `states`, in reference-list
order. -/
def missingStatesOf (st : Option JSVal) : List String :=
  EXPECTED_STATES.filter (fun s => !((objKeysOpt st).contains s))

/-- JavaScript strict equality `x === s` between a possibly-`undefined`
value and a string constant. -/
def strictEqStr (x : Option JSVal) (s : String) : Bool :=
  match x with
  | some (.str t) => t == s
  | _ => false

/-- The per-region summary returned by `validateStateFile`:
`{ issues: issues.length, hasReq: data.hasPublicWorksRequirement }`
(`hasReq` is the raw field value; the reporter only tests its truthiness). -/
structure Summary where
  issues : Nat
  hasReq : Option JSVal

/-- JavaScript `String.prototype.startsWith`: a character-level prefix
test (structurally computable, unlike `String.startsWith` of this
toolchain, which does not reduce). -/
def jsStartsWith (s pre : String) : Bool := pre.data.isPrefixOf s.data

/-- Lines 149-155 of `verify.js`: the checks run on `req = data.requirement`
when `data.hasPublicWorksRequirement && data.requirement` is truthy — the
four required sub-fields plus the URL-prefix check.  `.error` is the
`TypeError` thrown by `req.statuteUrl.startsWith` when `statuteUrl` is a
truthy non-string. -/
def requirementChecks (req : JSVal) : Except Unit (List String) :=
  let a := if jsTruthy (getF req "requirementType") then []
           else ["Missing requirement.requirementType"]
  let b := if jsTruthy (getF req "ratioDescription") then []
           else ["Missing requirement.ratioDescription"]
  let c := if jsTruthy (getF req "statute") then []
           else ["Missing requirement.statute"]
  let d := if jsTruthy (getF req "statuteUrl") then []
           else ["Missing requirement.statuteUrl"]
  match getF req "statuteUrl" with
  | some (.str s) =>
    .ok (a ++ b ++ c ++ d ++
      (if s ≠ "" ∧ jsStartsWith s "http" = false then ["Invalid statute URL: " ++ s] else []))
  | some v => if v.truthy then .error () else .ok (a ++ b ++ c ++ d)
  | none => .ok (a ++ b ++ c ++ d)

/-- Lines 130-144 of `verify.js`: the four unconditional content checks, in
push order (state-code match, `stateName`, `agencyType`, boolean
`hasPublicWorksRequirement`). -/
def baseIssues (stateCode : String) (data : JSVal) : List String :=
  (if strictEqStr (getF data "state") stateCode then []
   else ["State code mismatch: " ++ displayOpt (getF data "state") ++ " vs " ++ stateCode]) ++
  (if jsTruthy (getF data "stateName") then [] else ["Missing stateName"]) ++
  (if strictEqStr (getF data "agencyType") "SAA" || strictEqStr (getF data "agencyType") "OA"
   then [] else ["Invalid agencyType: " ++ displayOpt (getF data "agencyType")]) ++
  (if jsTypeof (getF data "hasPublicWorksRequirement") == "boolean" then []
   else ["Missing or invalid hasPublicWorksRequirement"])

/-- Lines 158-164 of `verify.js`: the trailing checks, in push order
(requirement object required when `hasPublicWorksRequirement` truthy;
`lastVerified` present). -/
def tailIssues (data : JSVal) : List String :=
  (if jsTruthy (getF data "hasPublicWorksRequirement")
      && !(jsTruthy (getF data "requirement"))
   then ["hasPublicWorksRequirement is true but no requirement object"] else []) ++
  (if jsTruthy (getF data "lastVerified") then [] else ["Missing lastVerified date"])

/-- The full ordered issues list accumulated by `validateStateFile` for a
parsed region document.  `.error` models the `TypeError` thrown either by
`data.state` when the document is JSON `null`, or inside
`requirementChecks`. -/
def stateIssues (stateCode : String) (data : JSVal) : Except Unit (List String) :=
  if data.isNull then .error () else
  match
    (if jsTruthy (getF data "hasPublicWorksRequirement")
        && jsTruthy (getF data "requirement") then
      requirementChecks ((getF data "requirement").getD JSVal.null)
    else .ok []) with
  | .error e => .error e
  | .ok reqIssues => .ok (baseIssues stateCode data ++ reqIssues ++ tailIssues data)

/-- Model of `validateStateFile(stateCode, indexEntry)`: emits findings into the
accumulator and returns the per-region summary, or `none` for a missing or
unparseable file.  (`indexEntry` is accepted but unused, as in the
source.) -/
def validateStateFile (stateCode : String) (indexEntry : Option JSVal)
    (file : FileRead) (r : Results) : Except Unit (Results × Option Summary) :=
  match file with
  | .missing => .ok (fail (stateCode ++ ".json exists") (.str "") r, none)
  | .unparseable msg =>
    .ok (fail (stateCode ++ ".json is valid JSON") (.str msg) r, none)
  | .parsed data =>
    match stateIssues stateCode data with
    | .error e => .error e
    | .ok issues =>
      let r :=
        if issues.length > 0 then
          let r := (issues.take 5).foldl (fun acc i => warn stateCode (.str i) acc) r
          if issues.length > 5 then
            warn stateCode
              (.str ("...and " ++ toString (issues.length - 5) ++ " more issues")) r
          else r
        else pass r
      .ok (r, some ⟨issues.length, getF data "hasPublicWorksRequirement"⟩)

/-- Model of `validateSearchIndex()`: the auxiliary check of
`web/public/search-index.json` (absence is a warning, parse failure or a
non-array document is an error). -/
def validateSearchIndex (file : FileRead) (r : Results) : Results :=
  match file with
  | .missing =>
    warn "search-index.json exists" (.str "Run build-search-index.js to generate") r
  | .unparseable msg =>
    fail "search-index.json is valid JSON" (.str msg) (pass r)
  | .parsed v =>
    match v with
    | .arr _ => pass (pass r)
    | _ => fail "search-index.json is an array" (.str "") (pass r)

/-- The `summary` object of the machine-readable report. -/
structure ReportSummary where
  states : Nat
  statesWithRequirements : Nat
  statesWithIssues : Nat

/-- The `results` object of the machine-readable report (the three counters). -/
structure Counters where
  passed : Nat
  warnings : Nat
  errors : Nat

/-- The machine-readable (`--json`) report document. -/
structure Report where
  timestamp : String
  status : String
  summary : ReportSummary
  results : Counters
  details : List Detail

/-- What one run renders: the JSON report, or the human-readable summary
(its coverage numbers, counters and final verdict line). -/
inductive Output where
  | jsonOut (rep : Report)
  | humanOut (summary : ReportSummary) (counters : Counters) (verdict : String)

/-- The status string of the machine-readable report (line 220). -/
def jsonStatus (r : Results) : String :=
  if r.errors > 0 then "failed"
  else if r.warnings > 0 then "passed_with_warnings"
  else "passed"

/-- Value of `process.exitCode` in `--json` mode (line 230). -/
def jsonExit (r : Results) : Nat := if r.errors > 0 then 1 else 0

/-- The final verdict line of the human-readable summary (lines 247-254). -/
def humanVerdict (r : Results) : String :=
  if r.errors > 0 then "✗ VERIFICATION FAILED"
  else if r.warnings > 0 then "⚠ VERIFICATION PASSED WITH WARNINGS"
  else "✓ VERIFICATION PASSED"

/-- Value of `process.exitCode` in human mode: set to 1 in the failed branch, left
at its default 0 otherwise (lines 247-254). -/
def humanExit (r : Results) : Nat := if r.errors > 0 then 1 else 0

/-- Model of `generateReport(stateStats)`: computes the summary statistics and
renders one of the two output forms, returning it with the process exit
code. -/
def generateReport (jsonMode : Bool) (timestamp : String)
    (stateStats : List (String × Option Summary)) (res : Results) : Output × Nat :=
  let statesWithReq :=
    (stateStats.filter (fun p => match p.2 with
      | some st => jsTruthy st.hasReq
      | none => false)).length
  let statesWithIssues :=
    (stateStats.filter (fun p => match p.2 with
      | some st => st.issues > 0
      | none => false)).length
  let summ : ReportSummary := ⟨stateStats.length, statesWithReq, statesWithIssues⟩
  let counters : Counters := ⟨res.passed, res.warnings, res.errors⟩
  if jsonMode then
    (.jsonOut { timestamp := timestamp, status := jsonStatus res,
                summary := summ, results := counters, details := res.details },
     jsonExit res)
  else
    (.humanOut summ counters (humanVerdict res), humanExit res)

/-- The status/verdict string of an output. -/
def Output.statusStr : Output → String
  | .jsonOut rep => rep.status
  | .humanOut _ _ v => v

/-- The error counter visible in an output. -/
def Output.errorsCount : Output → Nat
  | .jsonOut rep => rep.results.errors
  | .humanOut _ c _ => c.errors

/-- The warning counter visible in an output. -/
def Output.warningsCount : Output → Nat
  | .jsonOut rep => rep.results.warnings
  | .humanOut _ c _ => c.warnings

/-- Model of the assignment `stateStats[stateCode] = v`: JS object assignment (overwrites an
existing key, otherwise appends in insertion order). -/
def statsInsert (m : List (String × Option Summary)) (k : String)
    (v : Option Summary) : List (String × Option Summary) :=
  if m.any (fun p => p.1 == k) then
    m.map (fun p => if p.1 == k then (k, v) else p)
  else m ++ [(k, v)]

/-- The `for (const [stateCode] of Object.entries(index.states))` loop of
`main` (lines 274-276). -/
def processStates (fs : FS) :
    List (String × JSVal) → Results → List (String × Option Summary) →
    Except Unit (Results × List (String × Option Summary))
  | [], r, stats => .ok (r, stats)
  | (stateCode, entry) :: rest, r, stats =>
    match validateStateFile stateCode (some entry) (fs.stateFile stateCode) r with
    | .error e => .error e
    | .ok (r2, summ) => processStates fs rest r2 (statsInsert stats stateCode summ)

/-- Everything `main` does before `generateReport`: index validation and its
gate, the per-region loop, and the search-index check.  `.inl` is the
cannot-continue abort (`!index`), `.inr` carries the data handed to
`generateReport`. -/
def runCore (dateOk : JSVal → Bool) (fs : FS) :
    Except Unit (Results ⊕ (List (String × Option Summary) × Results)) :=
  match validateIndexFile dateOk fs.indexFile results0 with
  | .error e => .error e
  | .ok (r, none) => .ok (.inl r)
  | .ok (r, some idx) =>
    if idx.truthy = false then .ok (.inl r)
    else
      match processStates fs (objEntriesOpt (getF idx "states")) r [] with
      | .error e => .error e
      | .ok (r2, stats) => .ok (.inr (stats, validateSearchIndex fs.searchIndexFile r2))

/-- The observable outcome of one invocation of the script. -/
inductive RunOutcome where
  | crashed
  | cannotContinue (res : Results)
  | done (out : Output) (exitCode : Nat)

/-- Model of `main()` wrapped in `main().catch(...)`: an uncaught exception becomes
`crashed` (generic failure message, exit 1); a `null` return from
`validateIndexFile` becomes `cannotContinue` (distinct message, exit 1);
otherwise the run ends in `generateReport`. -/
def mainRun (dateOk : JSVal → Bool) (jsonMode : Bool) (timestamp : String)
    (fs : FS) : RunOutcome :=
  match runCore dateOk fs with
  | .error _ => .crashed
  | .ok (.inl r) => .cannotContinue r
  | .ok (.inr (stats, r)) =>
    match generateReport jsonMode timestamp stats r with
    | (out, code) => .done out code

/-- Erase the `timestamp` field of a completed run's JSON report (the one
field the spec excludes from the idempotence comparison). -/
def stripTs : RunOutcome → RunOutcome
  | .done (.jsonOut rep) ec => .done (.jsonOut { rep with timestamp := "" }) ec
  | o => o

/-- Condensed view of an index-validation result: (error counter, was a
validated index returned). -/
def indexResultView : Except Unit (Results × Option JSVal) → Except Unit (Nat × Bool) :=
  fun e => e.map (fun p => (p.1.errors, p.2.isSome))

/-- Condensed view of a run outcome: (status string, error counter, exit
code). -/
def outcomeView : RunOutcome → String × Nat × Nat
  | .done out ec => (out.statusStr, out.errorsCount, ec)
  | .crashed => ("crashed", 0, 1)
  | .cannotContinue _ => ("cannot-continue", 0, 1)

/-- A date oracle that accepts every value (used for concrete instances
whose `lastUpdated` is a parseable date). -/
def dateAlways : JSVal → Bool := fun _ => true

/-- A fully valid region document for region code `c`. -/
def mkDoc (c : String) : JSVal :=
  .obj [("state", .str c), ("stateName", .str "Name"), ("agencyType", .str "OA"),
        ("hasPublicWorksRequirement", .bool false), ("lastVerified", .str "2024-01-01")]

/-- An index document listing all 51 expected region codes. -/
def idxAll : JSVal :=
  .obj [("lastUpdated", .str "2024-01-01"),
        ("states", .obj (EXPECTED_STATES.map (fun c => (c, JSVal.obj []))))]

/-- A fully valid input: complete index, valid region files, array-shaped
search index. -/
def fsAllValid : FS :=
  { indexFile := .parsed idxAll,
    stateFile := fun c => .parsed (mkDoc c),
    searchIndexFile := .parsed (.arr []) }

/-- Same input but with the derived search-index artifact absent. -/
def fsNoSearchIndex : FS := { fsAllValid with searchIndexFile := .missing }

/-- An input whose index file parses to JSON `null`. -/
def fsNullIndex : FS :=
  { indexFile := .parsed .null, stateFile := fun _ => .missing,
    searchIndexFile := .missing }

/-- An input with no index file at all. -/
def fsMissingIndex : FS :=
  { indexFile := .missing, stateFile := fun _ => .missing,
    searchIndexFile := .missing }

/-- An index whose `states` field is an array. -/
def idxStatesArr : JSVal :=
  .obj [("lastUpdated", .str "2024-01-01"), ("states", .arr [])]

/-- A region document whose `statuteUrl` is the empty string. -/
def docEmptyUrl : JSVal :=
  .obj [("state", .str "CA"), ("stateName", .str "California"),
        ("agencyType", .str "OA"), ("hasPublicWorksRequirement", .bool true),
        ("requirement", .obj [("requirementType", .str "x"),
                              ("ratioDescription", .str "y"),
                              ("statute", .str "z"), ("statuteUrl", .str "")]),
        ("lastVerified", .str "2024")]

/-- A region document whose `hasPublicWorksRequirement` is the string
`"true"` and whose `requirement` object is empty. -/
def docStringTrue : JSVal :=
  .obj [("state", .str "CA"), ("stateName", .str "California"),
        ("agencyType", .str "OA"), ("hasPublicWorksRequirement", .str "true"),
        ("requirement", .obj []), ("lastVerified", .str "2024")]

/-- An otherwise-empty region document with `hasPublicWorksRequirement` set
to the string `"true"`: it accumulates nine issues. -/
def docNineIssues : JSVal :=
  .obj [("hasPublicWorksRequirement", .str "true"), ("requirement", .obj [])]

/-- An index that lists only California. -/
def idxOneState : JSVal :=
  .obj [("lastUpdated", .str "2024-01-01"), ("states", .obj [("CA", .obj [])])]

/-- The four missing-sub-field issues of an empty `requirement` object. -/
def reqMissing4 : List String :=
  ["Missing requirement.requirementType", "Missing requirement.ratioDescription",
   "Missing requirement.statute", "Missing requirement.statuteUrl"]

/-- A region document whose `statuteUrl` is a non-empty non-HTTP URL. -/
def docBadUrl : JSVal :=
  .obj [("state", .str "CA"), ("stateName", .str "California"),
        ("agencyType", .str "OA"), ("hasPublicWorksRequirement", .bool true),
        ("requirement", .obj [("requirementType", .str "x"),
                              ("ratioDescription", .str "y"),
                              ("statute", .str "z"),
                              ("statuteUrl", .str "ftp://x")]),
        ("lastVerified", .str "2024")]

/-- The nine issues produced for `docNineIssues` under region code "ZZ". -/
def nineIssues : List String :=
  ["State code mismatch: undefined vs ZZ", "Missing stateName",
   "Invalid agencyType: undefined", "Missing or invalid hasPublicWorksRequirement",
   "Missing requirement.requirementType", "Missing requirement.ratioDescription",
   "Missing requirement.statute", "Missing requirement.statuteUrl",
   "Missing lastVerified date"]

end Verify

namespace Verify

/-! ### Helper lemmas -/

theorem checkLastUpdated_warnings (dateOk : JSVal → Bool) (lu : Option JSVal)
    (r : Results) : (checkLastUpdated dateOk lu r).warnings = r.warnings := by
  unfold checkLastUpdated
  cases lu with
  | none => rfl
  | some v =>
    by_cases h : v.truthy = false
    · simp [h, fail]
    · by_cases h2 : dateOk v <;> simp [h, h2, fail, pass]

theorem isNull_false_of_getF_some {v : JSVal} {k : String} {u : JSVal}
    (h : getF v k = some u) : v.isNull = false := by
  cases v <;> simp_all [getF, JSVal.isNull]

theorem truthy_of_getF_some {v : JSVal} {k : String} {u : JSVal}
    (h : getF v k = some u) : v.truthy = true := by
  cases v <;> simp_all [getF, JSVal.truthy]

theorem statesOkB_truthy {v : JSVal} (h : statesOkB (getF v "states") = true) :
    v.truthy = true := by
  cases v <;> simp_all [getF, statesOkB, jsTruthy, JSVal.truthy]

theorem warnFoldl (stateCode : String) (l : List String) (r : Results) :
    l.foldl (fun acc i => warn stateCode (.str i) acc) r
      = ⟨r.passed, r.warnings + l.length, r.errors,
         r.details ++ l.map (fun i => ⟨"warning", stateCode, .str i⟩)⟩ := by
  induction l generalizing r with
  | nil => cases r <;> simp
  | cons i l ih =>
    rw [List.foldl_cons, ih]
    simp [warn, List.append_assoc, Results.mk.injEq]
    omega

theorem str_append_ne (a b c d : String) (i : Nat)
    (ha : i < a.data.length) (hc : i < c.data.length)
    (h : a.data[i]? ≠ c.data[i]?) : a ++ b ≠ c ++ d := by
  intro he
  apply h
  have h2 : (a ++ b).data = (c ++ d).data := by rw [he]
  rw [String.data_append, String.data_append] at h2
  calc a.data[i]? = (a.data ++ b.data)[i]? := (List.getElem?_append_left ha).symm
    _ = (c.data ++ d.data)[i]? := by rw [h2]
    _ = c.data[i]? := List.getElem?_append_left hc

theorem str_ne_append (t c d : String) (i : Nat)
    (ht : i < t.data.length) (hc : i < c.data.length)
    (h : t.data[i]? ≠ c.data[i]?) : t ≠ c ++ d := by
  have h2 := str_append_ne t "" c d i ht hc h
  rw [String.append_empty] at h2
  exact h2

theorem not_mem_ite_nil {x y : String} {c : Prop} [Decidable c]
    (h : x ≠ y) : x ∉ (if c then ([] : List String) else [y]) := by
  split
  · simp
  · simp [h]

theorem not_mem_ite_nil_right {x y : String} {c : Prop} [Decidable c]
    (h : x ≠ y) : x ∉ (if c then [y] else ([] : List String)) := by
  split
  · simp [h]
  · simp

theorem jsTruthy_some (v : JSVal) : jsTruthy (some v) = v.truthy := rfl

theorem validateIndexFile_bad (dateOk : JSVal → Bool) (idx : JSVal) (r : Results)
    (hn : idx.isNull = false) (hs : statesOkB (getF idx "states") = false) :
    validateIndexFile dateOk (.parsed idx) r
      = .ok (fail "index.json has states object" (.str "")
               (checkLastUpdated dateOk (getF idx "lastUpdated") (pass (pass r))),
             none) := by
  unfold validateIndexFile
  simp [hn, hs]

theorem validateIndexFile_ok (dateOk : JSVal → Bool) (idx : JSVal) (r : Results)
    (hn : idx.isNull = false) (hok : statesOkB (getF idx "states") = true) :
    validateIndexFile dateOk (.parsed idx) r
      = .ok ((if (missingStatesOf (getF idx "states")).length > 0 then
                warn "All expected states present"
                  (.str ("Missing: "
                     ++ String.intercalate ", " (missingStatesOf (getF idx "states"))))
                  (pass (checkLastUpdated dateOk (getF idx "lastUpdated")
                           (pass (pass r))))
              else pass (pass (checkLastUpdated dateOk (getF idx "lastUpdated")
                                 (pass (pass r))))),
             some idx) := by
  simp [validateIndexFile, hn, hok, missingStatesOf]

theorem processStates_valid (fs : FS) (entries : List (String × JSVal))
    (r : Results) (stats : List (String × Option Summary))
    (h : ∀ p ∈ entries, ∃ doc, fs.stateFile p.1 = .parsed doc
           ∧ stateIssues p.1 doc = .ok []) :
    ∃ n stats2, processStates fs entries r stats
      = .ok (⟨r.passed + n, r.warnings, r.errors, r.details⟩, stats2) := by
  induction entries generalizing r stats with
  | nil =>
    refine ⟨0, stats, ?_⟩
    cases r
    simp [processStates]
  | cons p rest ih =>
    obtain ⟨doc, hf, hi⟩ := h p (List.mem_cons_self p rest)
    obtain ⟨c, e⟩ := p
    have hv : validateStateFile c (some e) (.parsed doc) r
        = .ok (pass r, some ⟨0, getF doc "hasPublicWorksRequirement"⟩) := by
      simp only [validateStateFile]
      rw [hi]
      simp
    obtain ⟨n, st2, hps⟩ :=
      ih (pass r) (statsInsert stats c (some ⟨0, getF doc "hasPublicWorksRequirement"⟩))
        (fun q hq => h q (List.mem_cons_of_mem _ hq))
    refine ⟨n + 1, st2, ?_⟩
    simp only [processStates, hf, hv, hps]
    simp [pass, Results.mk.injEq]
    omega

theorem mkDoc_issues (c : String) : stateIssues c (mkDoc c) = .ok [] := by
  simp [stateIssues, mkDoc, baseIssues, tailIssues, getF, strictEqStr, jsTruthy,
        JSVal.truthy, JSVal.isNull, jsTypeof, List.lookup]

/-! ### Claim theorems -/

/-- Claim C1: for every run that reaches report generation, the overall
status follows the strict precedence errors-then-warnings-then-passed, and
the exit code is nonzero exactly when the error counter is positive, in
both output modes (which also agree on the exit code). -/
theorem claim1_status_precedence_and_exit (ts : String)
    (stateStats : List (String × Option Summary)) (res : Results) :
    ((res.errors > 0 →
        jsonStatus res = "failed" ∧ humanVerdict res = "✗ VERIFICATION FAILED")
     ∧ (res.errors = 0 ∧ res.warnings > 0 →
        jsonStatus res = "passed_with_warnings"
          ∧ humanVerdict res = "⚠ VERIFICATION PASSED WITH WARNINGS")
     ∧ (res.errors = 0 ∧ res.warnings = 0 →
        jsonStatus res = "passed" ∧ humanVerdict res = "✓ VERIFICATION PASSED"))
    ∧ (generateReport true ts stateStats res).1.statusStr = jsonStatus res
    ∧ (generateReport false ts stateStats res).1.statusStr = humanVerdict res
    ∧ ((generateReport true ts stateStats res).2 ≠ 0 ↔ res.errors > 0)
    ∧ ((generateReport false ts stateStats res).2 ≠ 0 ↔ res.errors > 0)
    ∧ (generateReport true ts stateStats res).2
        = (generateReport false ts stateStats res).2 := by
  refine ⟨⟨fun h => ?_, fun h => ?_, fun h => ?_⟩, rfl, rfl, ?_, ?_, rfl⟩
  · simp [jsonStatus, humanVerdict, h]
  · obtain ⟨h0, hw⟩ := h
    simp [jsonStatus, humanVerdict, h0, hw]
  · obtain ⟨h0, hw⟩ := h
    simp [jsonStatus, humanVerdict, h0, hw]
  · show jsonExit res ≠ 0 ↔ res.errors > 0
    unfold jsonExit
    split <;> simp_all
  · show humanExit res ≠ 0 ↔ res.errors > 0
    unfold humanExit
    split <;> simp_all

/-- Claim C1 witness: a result with two errors reports status "failed" in
both modes. -/
theorem claim1_witness :
    jsonStatus ⟨0, 0, 2, []⟩ = "failed"
      ∧ humanVerdict ⟨0, 0, 2, []⟩ = "✗ VERIFICATION FAILED" :=
  (claim1_status_precedence_and_exit "t" [] ⟨0, 0, 2, []⟩).1.1 (by decide)

/-- Claim C8: the machine-readable report is a deterministic function of
the inputs — two runs on identical files differ at most in the `timestamp`
field. -/
theorem claim8_idempotence (dateOk : JSVal → Bool) (fs : FS) (t1 t2 : String) :
    stripTs (mainRun dateOk true t1 fs) = stripTs (mainRun dateOk true t2 fs) := by
  unfold mainRun
  cases runCore dateOk fs with
  | error e => rfl
  | ok v =>
    cases v with
    | inl r => rfl
    | inr p => simp [generateReport, stripTs]

/-- Claim C10: a search-index artifact that parses to a non-array records
an error (forcing status "failed" and exit 1 whatever the rest of the run
produced), while a missing artifact only records a warning. -/
theorem claim10_search_index_severity (r : Results) (v : JSVal)
    (hv : ∀ xs, v ≠ JSVal.arr xs) :
    validateSearchIndex (.parsed v) r
        = fail "search-index.json is an array" (.str "") (pass r)
    ∧ (validateSearchIndex (.parsed v) r).errors = r.errors + 1
    ∧ (validateSearchIndex (.parsed v) r).warnings = r.warnings
    ∧ jsonStatus (validateSearchIndex (.parsed v) r) = "failed"
    ∧ jsonExit (validateSearchIndex (.parsed v) r) = 1
    ∧ humanExit (validateSearchIndex (.parsed v) r) = 1
    ∧ (validateSearchIndex .missing r).errors = r.errors
    ∧ (validateSearchIndex .missing r).warnings = r.warnings + 1 := by
  have hne : validateSearchIndex (.parsed v) r
      = fail "search-index.json is an array" (.str "") (pass r) := by
    cases v with
    | arr xs => exact absurd rfl (hv xs)
    | _ => rfl
  refine ⟨hne, ?_, ?_, ?_, ?_, ?_, ?_, ?_⟩ <;>
    simp [hne, fail, pass, warn, jsonStatus, jsonExit, humanExit,
          validateSearchIndex]

/-- Claim C7: for a region whose document parses, a non-empty issues list
is reported as its first five entries verbatim (in check order) plus, when
more than five exist, exactly one summarizing entry; an empty issues list
records exactly one pass and no warnings. -/
theorem claim7_reporting_policy (stateCode : String) (indexEntry : Option JSVal)
    (data : JSVal) (r : Results) (issues : List String)
    (h : stateIssues stateCode data = .ok issues) :
    (issues = [] →
      validateStateFile stateCode indexEntry (.parsed data) r
        = .ok (pass r, some ⟨0, getF data "hasPublicWorksRequirement"⟩))
    ∧ (issues ≠ [] →
      validateStateFile stateCode indexEntry (.parsed data) r
        = .ok (⟨r.passed,
                r.warnings + (issues.take 5).length
                  + (if issues.length > 5 then 1 else 0),
                r.errors,
                r.details
                  ++ (issues.take 5).map (fun i => ⟨"warning", stateCode, .str i⟩)
                  ++ (if issues.length > 5 then
                        [⟨"warning", stateCode,
                          .str ("...and " ++ toString (issues.length - 5)
                                  ++ " more issues")⟩]
                      else [])⟩,
               some ⟨issues.length, getF data "hasPublicWorksRequirement"⟩))
    ∧ (issues.take 5).length ≤ 5 := by
  have base : validateStateFile stateCode indexEntry (.parsed data) r
      = .ok (if issues.length > 0 then
               (if issues.length > 5 then
                  warn stateCode
                    (.str ("...and " ++ toString (issues.length - 5) ++ " more issues"))
                    ((issues.take 5).foldl (fun acc i => warn stateCode (.str i) acc) r)
                else (issues.take 5).foldl (fun acc i => warn stateCode (.str i) acc) r)
             else pass r,
             some ⟨issues.length, getF data "hasPublicWorksRequirement"⟩) := by
    simp only [validateStateFile]
    rw [h]
  refine ⟨fun he => ?_, fun hne => ?_, by rw [List.length_take]; omega⟩
  · subst he
    simpa using base
  · have hlen : issues.length > 0 := List.length_pos.mpr hne
    rw [base, warnFoldl]
    by_cases h5 : issues.length > 5
    · simp [hlen, h5, warn, Results.mk.injEq, List.append_assoc]
    · simp [hlen, h5, Results.mk.injEq]

/-- Claim C7 witness: the nine-issue document yields five verbatim warnings
plus one "...and 4 more issues" entry. -/
theorem claim7_witness :
    stateIssues "ZZ" docNineIssues = .ok nineIssues
    ∧ validateStateFile "ZZ" none (.parsed docNineIssues) results0
        = .ok (⟨results0.passed,
                results0.warnings + (nineIssues.take 5).length
                  + (if nineIssues.length > 5 then 1 else 0),
                results0.errors,
                results0.details
                  ++ (nineIssues.take 5).map (fun i => ⟨"warning", "ZZ", .str i⟩)
                  ++ (if nineIssues.length > 5 then
                        [⟨"warning", "ZZ",
                          .str ("...and " ++ toString (nineIssues.length - 5)
                                  ++ " more issues")⟩]
                      else [])⟩,
               some ⟨nineIssues.length, getF docNineIssues "hasPublicWorksRequirement"⟩) :=
  ⟨rfl,
   (claim7_reporting_policy "ZZ" none docNineIssues results0 nineIssues rfl).2.1
     (by decide)⟩

/-- Claim C4 (amended): for a parsed non-null index document, a missing or
primitive `states` records an error and returns the abort signal, while any
truthy `states` of JavaScript object type — a mapping or an array — lets
`validateIndexFile` return the validated index. -/
theorem claim4_states_gate (dateOk : JSVal → Bool) (idx : JSVal) (r : Results)
    (hn : idx.isNull = false) :
    (statesOkB (getF idx "states") = false →
      validateIndexFile dateOk (.parsed idx) r
        = .ok (fail "index.json has states object" (.str "")
                 (checkLastUpdated dateOk (getF idx "lastUpdated") (pass (pass r))),
               none))
    ∧ (statesOkB (getF idx "states") = true →
      (validateIndexFile dateOk (.parsed idx) r).map Prod.snd = .ok (some idx)) := by
  constructor
  · intro hs
    exact validateIndexFile_bad dateOk idx r hn hs
  · intro hs
    rw [validateIndexFile_ok dateOk idx r hn hs]
    rfl

/-- Claim C4 counterexample: an index whose `states` is an array (a
non-mapping) is accepted — zero errors and a validated index are returned,
because `typeof [] === "object"` in JavaScript. -/
theorem claim4_counterexample :
    indexResultView (validateIndexFile dateAlways (.parsed idxStatesArr) results0)
      = .ok (0, true) := rfl

/-- Claim C4 witness: an empty-object index (no `states` at all) records the
states error and aborts. -/
theorem claim4_witness :
    validateIndexFile dateAlways (.parsed (.obj [])) results0
      = .ok (fail "index.json has states object" (.str "")
               (checkLastUpdated dateAlways (getF (.obj []) "lastUpdated")
                 (pass (pass results0))),
             none) :=
  (claim4_states_gate dateAlways (.obj []) results0 rfl).1 rfl

/-- Claim C5: when the index's `states` mapping omits reference codes,
exactly one coverage warning is recorded and its detail text is the
comma-separated list of exactly the missing codes in reference-list order;
with no missing codes, no finding is produced regardless of extra keys; and
the validated index is returned either way, the region loop iterating
exactly the keys of `states`. -/
theorem claim5_missing_states_warning (dateOk : JSVal → Bool) (idx stv : JSVal)
    (r : Results)
    (hst : getF idx "states" = some stv)
    (hok : statesOkB (some stv) = true) :
    (missingStatesOf (some stv) ≠ [] →
      validateIndexFile dateOk (.parsed idx) r
        = .ok (warn "All expected states present"
                 (.str ("Missing: "
                    ++ String.intercalate ", " (missingStatesOf (some stv))))
                 (pass (checkLastUpdated dateOk (getF idx "lastUpdated")
                          (pass (pass r)))),
               some idx)
      ∧ (warn "All expected states present"
           (.str ("Missing: "
              ++ String.intercalate ", " (missingStatesOf (some stv))))
           (pass (checkLastUpdated dateOk (getF idx "lastUpdated")
                    (pass (pass r))))).warnings = r.warnings + 1
      ∧ (warn "All expected states present"
           (.str ("Missing: "
              ++ String.intercalate ", " (missingStatesOf (some stv))))
           (pass (checkLastUpdated dateOk (getF idx "lastUpdated")
                    (pass (pass r))))).details.getLast?
          = some ⟨"warning", "All expected states present",
              .str ("Missing: "
                 ++ String.intercalate ", " (missingStatesOf (some stv)))⟩)
    ∧ (missingStatesOf (some stv) = [] →
      validateIndexFile dateOk (.parsed idx) r
        = .ok (pass (pass (checkLastUpdated dateOk (getF idx "lastUpdated")
                             (pass (pass r)))),
               some idx)
      ∧ (pass (pass (checkLastUpdated dateOk (getF idx "lastUpdated")
                       (pass (pass r))))).warnings = r.warnings)
    ∧ (objEntriesOpt (some stv)).map Prod.fst = objKeysOpt (some stv) := by
  have hn : idx.isNull = false := isNull_false_of_getF_some hst
  have hshape := validateIndexFile_ok dateOk idx r hn (by rw [hst]; exact hok)
  rw [hst] at hshape
  refine ⟨fun hm => ⟨?_, ?_, ?_⟩, fun hm => ⟨?_, ?_⟩, ?_⟩
  · have hlen : (missingStatesOf (some stv)).length > 0 := List.length_pos.mpr hm
    rw [hshape, if_pos hlen]
  · simp [warn, pass, checkLastUpdated_warnings]
  · simp [warn, pass, List.getLast?_concat]
  · rw [hshape, if_neg (by simp [hm])]
  · simp [pass, checkLastUpdated_warnings]
  · cases stv with
    | arr xs =>
      simp only [objEntriesOpt, objKeysOpt, List.map_map]
      rw [← List.enum_map_fst xs, List.map_map]
      rfl
    | _ => rfl

/-- Claim C5 witness: an index listing only CA gets exactly one coverage
warning naming the other 50 codes, and the validated index is returned. -/
theorem claim5_witness :
    missingStatesOf (some (JSVal.obj [("CA", JSVal.obj [])])) ≠ []
    ∧ validateIndexFile dateAlways (.parsed idxOneState) results0
        = .ok (warn "All expected states present"
                 (.str ("Missing: "
                    ++ String.intercalate ", "
                         (missingStatesOf (some (JSVal.obj [("CA", JSVal.obj [])])))))
                 (pass (checkLastUpdated dateAlways (getF idxOneState "lastUpdated")
                          (pass (pass results0)))),
               some idxOneState) :=
  ⟨by decide,
   ((claim5_missing_states_warning dateAlways idxOneState (.obj [("CA", .obj [])])
       results0 rfl rfl).1 (by decide)).1⟩

/-- Claim C9: a truthy non-boolean `hasPublicWorksRequirement` (with a
present requirement object) yields the invalid-field issue *and* still runs
the requirement sub-field/URL checks — the gate is truthiness, not the
boolean `true`. -/
theorem claim9_truthy_gating (stateCode : String) (data hpw req : JSVal)
    (reqIssues : List String)
    (hh : getF data "hasPublicWorksRequirement" = some hpw)
    (ht : hpw.truthy = true)
    (hb : jsTypeof (some hpw) ≠ "boolean")
    (hr : getF data "requirement" = some req)
    (hrt : req.truthy = true)
    (hc : requirementChecks req = .ok reqIssues) :
    stateIssues stateCode data
        = .ok (baseIssues stateCode data ++ reqIssues ++ tailIssues data)
    ∧ "Missing or invalid hasPublicWorksRequirement" ∈ baseIssues stateCode data
    ∧ tailIssues data
        = (if jsTruthy (getF data "lastVerified") then []
           else ["Missing lastVerified date"]) := by
  have hn : data.isNull = false := isNull_false_of_getF_some hh
  have hgate : (if jsTruthy (getF data "hasPublicWorksRequirement")
      && jsTruthy (getF data "requirement") then
        requirementChecks ((getF data "requirement").getD JSVal.null)
      else .ok []) = requirementChecks req := by
    rw [hh, hr]
    simp only [jsTruthy_some, ht, hrt, Option.getD_some]
    rfl
  refine ⟨?_, ?_, ?_⟩
  · simp only [stateIssues, hn, Bool.false_eq_true, if_false, hgate, hc]
  · have hb2 : (jsTypeof (some hpw) == "boolean") = false := by
      simp [hb]
    simp [baseIssues, hh, hb2]
  · simp [tailIssues, hh, hr, jsTruthy, ht, hrt]

/-- Claim C9 witness: `hasPublicWorksRequirement: "true"` with an empty
requirement object gets the invalid-field issue and all four sub-field
issues. -/
theorem claim9_witness :
    stateIssues "CA" docStringTrue
        = .ok (baseIssues "CA" docStringTrue ++ reqMissing4 ++ tailIssues docStringTrue)
    ∧ "Missing or invalid hasPublicWorksRequirement" ∈ baseIssues "CA" docStringTrue :=
  ⟨(claim9_truthy_gating "CA" docStringTrue (.str "true") (.obj []) reqMissing4
      rfl rfl (by decide) rfl rfl rfl).1,
   (claim9_truthy_gating "CA" docStringTrue (.str "true") (.obj []) reqMissing4
      rfl rfl (by decide) rfl rfl rfl).2.1⟩

/-- Claim C6 (amended): with `hasPublicWorksRequirement: true`, a present
requirement object, and a *non-empty* string `statuteUrl` that does not
start with "http", the requirement checks produce exactly the invalid-URL
issue among the URL-related checks, and the full issues list contains the
invalid-URL issue but not the missing-statuteUrl issue. -/
theorem claim6_invalid_statute_url (stateCode : String) (data req : JSVal)
    (s : String)
    (hh : getF data "hasPublicWorksRequirement" = some (.bool true))
    (hr : getF data "requirement" = some req)
    (hrt : req.truthy = true)
    (hsu : getF req "statuteUrl" = some (.str s))
    (hne : s ≠ "")
    (hpre : jsStartsWith s "http" = false) :
    requirementChecks req
      = .ok ((if jsTruthy (getF req "requirementType") then []
              else ["Missing requirement.requirementType"])
          ++ (if jsTruthy (getF req "ratioDescription") then []
              else ["Missing requirement.ratioDescription"])
          ++ (if jsTruthy (getF req "statute") then []
              else ["Missing requirement.statute"])
          ++ ["Invalid statute URL: " ++ s])
    ∧ ∃ issues, stateIssues stateCode data = .ok issues
        ∧ ("Invalid statute URL: " ++ s) ∈ issues
        ∧ "Missing requirement.statuteUrl" ∉ issues := by
  have hn : data.isNull = false := isNull_false_of_getF_some hh
  have hreq : requirementChecks req
      = .ok ((if jsTruthy (getF req "requirementType") then []
              else ["Missing requirement.requirementType"])
          ++ (if jsTruthy (getF req "ratioDescription") then []
              else ["Missing requirement.ratioDescription"])
          ++ (if jsTruthy (getF req "statute") then []
              else ["Missing requirement.statute"])
          ++ ["Invalid statute URL: " ++ s]) := by
    simp only [requirementChecks, hsu]
    simp [jsTruthy, JSVal.truthy, hne, hpre]
  have hstate : stateIssues stateCode data
      = .ok (baseIssues stateCode data
          ++ ((if jsTruthy (getF req "requirementType") then []
               else ["Missing requirement.requirementType"])
            ++ (if jsTruthy (getF req "ratioDescription") then []
                else ["Missing requirement.ratioDescription"])
            ++ (if jsTruthy (getF req "statute") then []
                else ["Missing requirement.statute"])
            ++ ["Invalid statute URL: " ++ s])
          ++ tailIssues data) := by
    have hgate : (if jsTruthy (getF data "hasPublicWorksRequirement")
        && jsTruthy (getF data "requirement") then
          requirementChecks ((getF data "requirement").getD JSVal.null)
        else .ok []) = requirementChecks req := by
      rw [hh, hr]
      simp only [jsTruthy_some, hrt, Option.getD_some]
      rfl
    simp only [stateIssues, hn, Bool.false_eq_true, if_false, hgate, hreq]
  refine ⟨hreq, _, hstate, ?_, ?_⟩
  · simp [List.mem_append]
  · have hM : ("Missing requirement.statuteUrl" : String).data[0]? = some 'M' := by decide
    have hbase : "Missing requirement.statuteUrl" ∉ baseIssues stateCode data := by
      unfold baseIssues
      refine List.not_mem_append (List.not_mem_append (List.not_mem_append ?_ ?_) ?_) ?_
      · refine not_mem_ite_nil ?_
        rw [String.append_assoc, String.append_assoc]
        exact str_ne_append _ _ _ 0 (by decide) (by decide) (by decide)
      · exact not_mem_ite_nil (by decide)
      · refine not_mem_ite_nil ?_
        exact str_ne_append _ _ _ 0 (by decide) (by decide) (by decide)
      · exact not_mem_ite_nil (by decide)
    have hmid : "Missing requirement.statuteUrl"
        ∉ ((if jsTruthy (getF req "requirementType") then []
            else ["Missing requirement.requirementType"])
          ++ (if jsTruthy (getF req "ratioDescription") then []
              else ["Missing requirement.ratioDescription"])
          ++ (if jsTruthy (getF req "statute") then []
              else ["Missing requirement.statute"])
          ++ ["Invalid statute URL: " ++ s]) := by
      refine List.not_mem_append
        (List.not_mem_append (List.not_mem_append ?_ ?_) ?_) ?_
      · exact not_mem_ite_nil (by decide)
      · exact not_mem_ite_nil (by decide)
      · exact not_mem_ite_nil (by decide)
      · simp only [List.mem_singleton]
        exact str_ne_append _ _ _ 0 (by decide) (by decide) (by decide)
    have htail : "Missing requirement.statuteUrl" ∉ tailIssues data := by
      unfold tailIssues
      exact List.not_mem_append (not_mem_ite_nil_right (by decide))
        (not_mem_ite_nil (by decide))
    exact List.not_mem_append (List.not_mem_append hbase hmid) htail

/-- Claim C6 counterexample: an empty-string `statuteUrl` does not start
with an HTTP(S) scheme, yet it produces the *missing*-statuteUrl issue and
no invalid-URL issue — refuting the claim for that value. -/
theorem claim6_counterexample :
    stateIssues "CA" docEmptyUrl = .ok ["Missing requirement.statuteUrl"]
    ∧ jsStartsWith "" "http" = false :=
  ⟨rfl, by decide⟩

/-- Claim C6 witness: `statuteUrl: "ftp://x"` yields exactly the invalid-URL
issue and no missing-statuteUrl issue. -/
theorem claim6_witness :
    ∃ issues, stateIssues "CA" docBadUrl = .ok issues
      ∧ ("Invalid statute URL: " ++ "ftp://x") ∈ issues
      ∧ "Missing requirement.statuteUrl" ∉ issues :=
  (claim6_invalid_statute_url "CA" docBadUrl
      (.obj [("requirementType", .str "x"), ("ratioDescription", .str "y"),
             ("statute", .str "z"), ("statuteUrl", .str "ftp://x")])
      "ftp://x" rfl rfl rfl rfl (by decide) (by decide)).2

/-- Claim C2 (amended): the cannot-continue abort occurs exactly for the
three index-level failures — file missing, file unparseable, or a parsed
non-null document with missing/non-object `states` (an index parsing to
JSON `null` instead crashes the run as an uncaught failure); a region file
that is missing or unparseable records exactly one error, yields no
summary, and the loop continues with the next region. -/
theorem claim2_abort_conditions (dateOk : JSVal → Bool) (jsonMode : Bool)
    (ts : String) (fs : FS) :
    ((∃ r, mainRun dateOk jsonMode ts fs = .cannotContinue r) ↔
      (fs.indexFile = .missing
        ∨ (∃ msg, fs.indexFile = .unparseable msg)
        ∨ (∃ v, fs.indexFile = .parsed v ∧ v.isNull = false
             ∧ statesOkB (getF v "states") = false)))
    ∧ (∀ v, fs.indexFile = .parsed v → v.isNull = true →
        mainRun dateOk jsonMode ts fs = .crashed)
    ∧ (∀ stateCode entry r,
        validateStateFile stateCode entry .missing r
          = .ok (fail (stateCode ++ ".json exists") (.str "") r, none))
    ∧ (∀ stateCode entry msg r,
        validateStateFile stateCode entry (.unparseable msg) r
          = .ok (fail (stateCode ++ ".json is valid JSON") (.str msg) r, none))
    ∧ (∀ check det r, (fail check det r).errors = r.errors + 1
        ∧ (fail check det r).warnings = r.warnings
        ∧ (fail check det r).passed = r.passed
        ∧ (fail check det r).details = r.details ++ [⟨"error", check, det⟩])
    ∧ (∀ stateCode entry rest r stats,
        fs.stateFile stateCode = .missing →
        processStates fs ((stateCode, entry) :: rest) r stats
          = processStates fs rest (fail (stateCode ++ ".json exists") (.str "") r)
              (statsInsert stats stateCode none))
    ∧ (∀ stateCode entry rest r stats msg,
        fs.stateFile stateCode = .unparseable msg →
        processStates fs ((stateCode, entry) :: rest) r stats
          = processStates fs rest
              (fail (stateCode ++ ".json is valid JSON") (.str msg) r)
              (statsInsert stats stateCode none)) := by
  have hcc : ∀ r1, validateIndexFile dateOk fs.indexFile results0 = .ok (r1, none) →
      mainRun dateOk jsonMode ts fs = .cannotContinue r1 := by
    intro r1 h
    simp [mainRun, runCore, h]
  refine ⟨⟨?_, ?_⟩, ?_, fun c e r => rfl, fun c e m r => rfl,
          fun c d r => ⟨rfl, rfl, rfl, rfl⟩, ?_, ?_⟩
  · rintro ⟨r, hr⟩
    cases hidx : fs.indexFile with
    | missing => exact .inl rfl
    | unparseable msg => exact .inr (.inl ⟨msg, rfl⟩)
    | parsed v =>
      by_cases hnull : v.isNull = true
      · exfalso
        rw [show mainRun dateOk jsonMode ts fs = .crashed by
              simp [mainRun, runCore, validateIndexFile, hidx, hnull]] at hr
        exact RunOutcome.noConfusion hr
      · rw [Bool.not_eq_true] at hnull
        by_cases hs : statesOkB (getF v "states") = false
        · exact .inr (.inr ⟨v, rfl, hnull, hs⟩)
        · exfalso
          rw [Bool.not_eq_false] at hs
          have hvi := validateIndexFile_ok dateOk v results0 hnull hs
          have htr := statesOkB_truthy hs
          simp only [mainRun, runCore, hidx, hvi, htr, Bool.true_eq_false,
                     if_false] at hr
          split at hr
          · exact RunOutcome.noConfusion hr
          · next x r1 heq =>
              split at heq
              · exact Except.noConfusion heq
              · simp at heq
          · exact RunOutcome.noConfusion hr
  · rintro (h | ⟨msg, h⟩ | ⟨v, h, hn, hs⟩)
    · exact ⟨_, hcc _ (by rw [h]; rfl)⟩
    · exact ⟨_, hcc _ (by rw [h]; rfl)⟩
    · exact ⟨_, hcc _ (by rw [h]; exact validateIndexFile_bad dateOk v results0 hn hs)⟩
  · intro v hv hnull
    simp [mainRun, runCore, validateIndexFile, hv, hnull]
  · intro c e rest r stats hm
    simp [processStates, hm, validateStateFile]
  · intro c e rest r stats msg hm
    simp [processStates, hm, validateStateFile]

/-- Claim C3 (amended): a valid index covering all 51 reference codes,
structurally valid documents for every listed region, and a present
array-shaped search-index artifact yield zero errors, zero warnings, the
"passed" status, and exit code 0. -/
theorem claim3_all_valid_passes (dateOk : JSVal → Bool) (jsonMode : Bool)
    (ts : String) (fs : FS) (idx lu : JSVal) (stfs : List (String × JSVal))
    (hidx : fs.indexFile = .parsed idx)
    (hlu : getF idx "lastUpdated" = some lu)
    (hlut : lu.truthy = true) (hld : dateOk lu = true)
    (hst : getF idx "states" = some (.obj stfs))
    (hall : missingStatesOf (some (.obj stfs)) = [])
    (hdocs : ∀ p ∈ stfs, ∃ doc, fs.stateFile p.1 = .parsed doc
               ∧ stateIssues p.1 doc = .ok [])
    (hsi : ∃ xs, fs.searchIndexFile = .parsed (.arr xs)) :
    ∃ out, mainRun dateOk jsonMode ts fs = .done out 0
      ∧ out.errorsCount = 0 ∧ out.warningsCount = 0
      ∧ out.statusStr
          = (if jsonMode then "passed" else "✓ VERIFICATION PASSED") := by
  have hn : idx.isNull = false := isNull_false_of_getF_some hst
  have hok : statesOkB (getF idx "states") = true := by rw [hst]; rfl
  have htr : idx.truthy = true := truthy_of_getF_some hst
  have hcl : checkLastUpdated dateOk (getF idx "lastUpdated") (pass (pass results0))
      = ⟨3, 0, 0, []⟩ := by
    rw [hlu]
    simp [checkLastUpdated, hlut, hld, pass, results0]
  have hvi := validateIndexFile_ok dateOk idx results0 hn hok
  rw [hst, hall] at hvi
  simp only [List.length_nil, gt_iff_lt, Nat.lt_irrefl, if_false] at hvi
  have hvi2 : validateIndexFile dateOk (.parsed idx) results0
      = .ok ((⟨5, 0, 0, []⟩ : Results), some idx) := by
    rw [hvi, hcl]
    rfl
  obtain ⟨n, stats2, hps⟩ := processStates_valid fs stfs ⟨5, 0, 0, []⟩ [] hdocs
  obtain ⟨xs, hsix⟩ := hsi
  have hmain : mainRun dateOk jsonMode ts fs
      = .done (generateReport jsonMode ts stats2
                 (pass (pass (⟨5 + n, 0, 0, []⟩ : Results)))).1
              (generateReport jsonMode ts stats2
                 (pass (pass (⟨5 + n, 0, 0, []⟩ : Results)))).2 := by
    simp only [mainRun, runCore, hidx, hvi2, htr, Bool.true_eq_false, if_false]
    simp only [hst, objEntriesOpt]
    rw [hps, hsix]
    rfl
  refine ⟨(generateReport jsonMode ts stats2
             (pass (pass (⟨5 + n, 0, 0, []⟩ : Results)))).1, ?_, ?_, ?_, ?_⟩
  · rw [hmain]
    cases jsonMode <;>
      simp [generateReport, jsonExit, humanExit, pass]
  · cases jsonMode <;>
      simp [generateReport, Output.errorsCount, pass]
  · cases jsonMode <;>
      simp [generateReport, Output.warningsCount, pass]
  · cases jsonMode <;>
      simp [generateReport, Output.statusStr, jsonStatus, humanVerdict, pass]

/-- Claim C3 counterexample: the very same fully valid index and region
documents, but with the search-index artifact absent, report status
"passed with warnings" rather than "passed" — so the claim as stated (which
says nothing about the artifact) fails. -/
theorem claim3_counterexample :
    outcomeView (mainRun dateAlways true "t" fsNoSearchIndex)
      = ("passed_with_warnings", 0, 0)
    ∧ fsNoSearchIndex.indexFile = .parsed idxAll
    ∧ fsNoSearchIndex.stateFile "CA" = .parsed (mkDoc "CA")
    ∧ fsNoSearchIndex.searchIndexFile = .missing := by
  exact ⟨rfl, rfl, rfl, rfl⟩

/-- Claim C3 witness: the fully valid input (artifact present) passes with
exit code 0. -/
theorem claim3_witness :
    ∃ out, mainRun dateAlways true "t" fsAllValid = .done out 0
      ∧ out.errorsCount = 0 ∧ out.warningsCount = 0
      ∧ out.statusStr = (if true then "passed" else "✓ VERIFICATION PASSED") :=
  claim3_all_valid_passes dateAlways true "t" fsAllValid idxAll
    (.str "2024-01-01") (EXPECTED_STATES.map (fun c => (c, JSVal.obj [])))
    rfl rfl (by decide) rfl rfl (by decide)
    (fun p hp => by
      obtain ⟨c, hc, rfl⟩ := List.mem_map.mp hp
      exact ⟨mkDoc c, rfl, mkDoc_issues c⟩)
    ⟨[], rfl⟩

/-- Claim C2 counterexample: an index file that parses to JSON `null` has a
missing (non-object) `states` field, yet the run does not take the
cannot-continue abort — it crashes as an uncaught `TypeError`. -/
theorem claim2_counterexample :
    mainRun dateAlways true "t" fsNullIndex = .crashed
    ∧ fsNullIndex.indexFile = .parsed .null := ⟨rfl, rfl⟩

/-- Claim C2 witness: a missing index file produces the cannot-continue
abort. -/
theorem claim2_witness :
    ∃ r, mainRun dateAlways true "t" fsMissingIndex = .cannotContinue r :=
  (claim2_abort_conditions dateAlways true "t" fsMissingIndex).1.mpr (.inl rfl)

/-- Claim C10 witness: at the concrete non-array document `{}` and the empty
accumulator. -/
theorem claim10_witness :
    validateSearchIndex (.parsed (.obj [])) results0
        = fail "search-index.json is an array" (.str "") (pass results0)
      ∧ (validateSearchIndex (.parsed (.obj [])) results0).errors
          = results0.errors + 1
      ∧ (validateSearchIndex (.parsed (.obj [])) results0).warnings
          = results0.warnings
      ∧ jsonStatus (validateSearchIndex (.parsed (.obj [])) results0) = "failed"
      ∧ jsonExit (validateSearchIndex (.parsed (.obj [])) results0) = 1
      ∧ humanExit (validateSearchIndex (.parsed (.obj [])) results0) = 1
      ∧ (validateSearchIndex .missing results0).errors = results0.errors
      ∧ (validateSearchIndex .missing results0).warnings
          = results0.warnings + 1 :=
  claim10_search_index_severity results0 (.obj []) (fun xs h => JSVal.noConfusion h)

end Verify
